import Mathlib

/-!
Shallow embedding of the PGS (`.sup`) subtitle decoder of `vobsubocr`
(`src/pgs/rle.rs`, `src/pgs/u24.rs`, `src/pgs/segment.rs`, `src/pgs/mod.rs`),
together with theorems checking the natural-language specification against it.

Conventions of the embedding:
* Rust byte buffers (`Vec<u8>`, `&[u8]`) become `List Nat`; a byte is a `Nat`
  that is `< 256` in every real execution (theorems add this bound where the
  value of a bit test matters).
* A `BufReader` positioned in a file becomes a `ByteStream` (the whole byte
  list plus a cursor position); `read_exact` either yields the requested slice
  and advances the cursor, or fails like the Rust `io::Error` path.
* Fallible Rust functions returning `Result<T, Error>` become
  `Except PgsError T`.  Rust panics (failed `assert!` / `assert_eq!`,
  `unwrap` on a failed read, out-of-bounds indexing, `usize` underflow in a
  debug build) are not `Error` values in the source; they are modelled by the
  distinguished constructor `PgsError.panicked` (for stream-reading code) or
  by `Option.none` (for the panic-only `decode_rle`).
-/

/-- A readable byte source with a cursor, modelling `BufReader<File>` plus its
stream position. `data` is the whole underlying file. -/
structure ByteStream where
  data : List Nat
  pos : Nat
  deriving DecidableEq

/-- The error type of `src/pgs/mod.rs` (`enum Error`), extended with a
`panicked` marker for Rust panics, which in the source are process aborts and
not values of `Error`. -/
inductive PgsError where
  | parseHeaderSegment
  | ioError
  | strError (value : String)
  | endOfFile
  | panicked
  deriving DecidableEq

/-- Big-endian decode of two bytes (`u16::from_be_bytes` /
`BigEndian::read_u16`). -/
def be16 (a b : Nat) : Nat := a * 256 + b

/-- Big-endian decode of four bytes (`u32::from_be_bytes`). -/
def be32 (a b c d : Nat) : Nat := ((a * 256 + b) * 256 + c) * 256 + d

/-- `reader.read_exact(&mut buf)` for a buffer of `k` bytes: yields the `k`
bytes at the cursor and advances it, or fails like the underlying
`io::Error` when fewer than `k` bytes remain. -/
def readExact (s : ByteStream) (k : Nat) : Except PgsError (List Nat × ByteStream) :=
  if s.pos + k ≤ s.data.length then
    .ok ((s.data.drop s.pos).take k, ⟨s.data, s.pos + k⟩)
  else
    .error .ioError

/-- The byte of the underlying data `j` positions after the cursor (used only
to state theorems; out-of-range defaults to 0). -/
def byteAt (s : ByteStream) (j : Nat) : Nat := s.data.getD (s.pos + j) 0

/-! ## `src/pgs/u24.rs` -/

/-- `u24`: a 3-byte value, stored exactly as its Rust field `[u8; 3]`. -/
structure u24 where
  byte0 : Nat
  byte1 : Nat
  byte2 : Nat
  deriving DecidableEq

/-- `u24::to_u32`: `u32::from_be_bytes([0, a, b, c])` for stored bytes
`[a, b, c]`. -/
def u24.to_u32 (x : u24) : Nat := be32 0 x.byte0 x.byte1 x.byte2

/-- `u24::from_u32`: takes `n.to_le_bytes() = [a, b, c, d]` (little-endian!)
and stores `[a, b, c]`.  The `debug_assert!(d == 0)` is not modelled; the
claims only use `n < 2^24`, where it passes. -/
def u24.from_u32 (n : Nat) : u24 :=
  ⟨n % 256, n / 256 % 256, n / 65536 % 256⟩

/-- `From<[u8; 3]> for u24`: store the three bytes as given. -/
def u24.fromBytes (a b c : Nat) : u24 := ⟨a, b, c⟩

/-! ## `src/pgs/rle.rs` -/

/-- `is_color` from `rle.rs`: `byte >> 7 == 1` (bit 7 of a `u8`). -/
def is_color (byte : Nat) : Bool := byte >>> 7 == 1

/-- `is_long` from `rle.rs`: `(byte >> 6) & 1 == 1` (bit 6 of a `u8`). -/
def is_long (byte : Nat) : Bool := (byte >>> 6) &&& 1 == 1

/-- One iteration of the `loop` in `decode_rle`, starting with the cursor at
`pos` (the body after the end-of-data check).  Returns `none` when the body
panics (`read_u8().unwrap()` past the end of the data, or the
`assert_eq!(len_u8 >> 6, 0)`), otherwise `some (emitted pixels, new cursor)`.

Branches, in source order:
* first byte non-zero: `output.push(1)` — the literal placeholder pixel `1`;
* first byte `0`, second byte `0`: emit nothing, `continue`;
* otherwise the second byte is run info: bit 7 = explicit color, bit 6 = long
  run; a long run reads a low length byte
  (`BigEndian::read_u16([info & 0x3F, b2])`), an explicit color reads a color
  byte, default color is `0`; emit `len` copies of the color. -/
def rleStep (data : List Nat) (pos : Nat) : Option (List Nat × Nat) :=
  match data.get? pos with
  | none => none
  | some b0 =>
    if b0 ≠ 0 then
      some ([1], pos + 1)
    else
      match data.get? (pos + 1) with
      | none => none
      | some info =>
        if info = 0 then
          some ([], pos + 2)
        else
          let len_u8 := info &&& 63
          if len_u8 >>> 6 ≠ 0 then
            none
          else
            let lenPos : Option (Nat × Nat) :=
              if is_long info then
                match data.get? (pos + 2) with
                | none => none
                | some len2_u8 => some (be16 len_u8 len2_u8, pos + 3)
              else
                some (len_u8, pos + 2)
            match lenPos with
            | none => none
            | some (len, p) =>
              let colorPos : Option (Nat × Nat) :=
                if is_color info then
                  match data.get? p with
                  | none => none
                  | some c => some (c, p + 1)
                else
                  some (0, p)
              match colorPos with
              | none => none
              | some (color, q) => some (List.replicate len color, q)

/-- The `loop` of `decode_rle`, written with a fuel argument so that the
definition is structural and computable.  Each iteration that recurses
advances the cursor by at least one byte (`rleStep_pos_lt`), so
`data.length + 1` units of fuel are never exhausted; fuel exhaustion returns
`none` like a panic but is unreachable from `decodeRle`
(`decodeRleFuel_sufficient`). -/
def decodeRleFuel : Nat → List Nat → Nat → Option (List Nat)
  | 0, _, _ => none
  | fuel + 1, data, pos =>
    if pos < data.length then
      match rleStep data pos with
      | none => none
      | some (out, next) => (decodeRleFuel fuel data next).map (fun rest => out ++ rest)
    else
      some []

/-- `decode_rle`: scan the whole input from position 0; `some output` models a
normal return of the output vector, `none` models a panic. -/
def decodeRle (data : List Nat) : Option (List Nat) :=
  decodeRleFuel (data.length + 1) data 0

/-! ## `src/pgs/segment.rs` -/

/-- The magic marker `MAGIC_NUMBER = [0x50, 0x47]` ("PG"). -/
def magicNumber : List Nat := [0x50, 0x47]

/-- The message built at the `InvalidMagic` failure of `read_header`, up to
the interpolated stream position. -/
def magicErrMsg : String := "Unable to read segment header - MAGIC_NUMBER missing! Stream pos : "

/-- `SegmentHeader` from `segment.rs`; `type_code` is kept as the raw byte
(the `SegmentTypeCode` newtype). -/
structure SegmentHeader where
  pts : Nat
  dts : Nat
  type_code : Nat
  size : Nat
  deriving DecidableEq

/-- `SegmentHeader::presentation_time`: `pts / 90` with `u32` (truncating)
division. -/
def SegmentHeader.presentation_time (h : SegmentHeader) : Nat := h.pts / 90

/-- `read_header`: read exactly 13 bytes; check the 2-byte magic, failing with
the `Error::String` message carrying `reader.stream_position()` (the position
after the 13-byte read); otherwise decode pts, dts, type code and payload
size big-endian. -/
def read_header (s : ByteStream) : Except PgsError (SegmentHeader × ByteStream) :=
  match readExact s 13 with
  | .error e => .error e
  | .ok (buf, s1) =>
    if buf.take 2 ≠ magicNumber then
      .error (.strError (magicErrMsg ++ toString s1.pos))
    else
      .ok (⟨be32 (buf.getD 2 0) (buf.getD 3 0) (buf.getD 4 0) (buf.getD 5 0),
            be32 (buf.getD 6 0) (buf.getD 7 0) (buf.getD 8 0) (buf.getD 9 0),
            buf.getD 10 0,
            be16 (buf.getD 11 0) (buf.getD 12 0)⟩, s1)

/-- `CompositionState` from `mod.rs`. -/
inductive CompositionState where
  | Normal
  | AcquisitionPoint
  | EpochStart
  deriving DecidableEq

/-- `TryFrom<u8> for CompositionState`. -/
def CompositionState.tryFrom (value : Nat) : Except PgsError CompositionState :=
  if value = 0x00 then .ok .Normal
  else if value = 0x40 then .ok .AcquisitionPoint
  else if value = 0x80 then .ok .EpochStart
  else .error (.strError "invalid value for CompositionState")

/-- `ObjectCroppingInfo` from `mod.rs`. -/
structure ObjectCroppingInfo where
  object_cropping_horizontal_position : Nat
  object_cropping_vertical_position : Nat
  object_cropping_width : Nat
  object_cropping_height_position : Nat
  deriving DecidableEq

/-- `WindowInformationObject` from `mod.rs`. -/
structure WindowInformationObject where
  object_id : Nat
  window_id : Nat
  object_cropped_flag : Nat
  object_horizontal_position : Nat
  object_vertical_position : Nat
  object_cropping_info : Option ObjectCroppingInfo
  deriving DecidableEq

/-- `read_window_info` from `mod.rs`: an 8-byte record, then 8 further bytes
of cropping info exactly when the crop flag is `0x40`; a flag other than
`0x00`/`0x40` is the `Error::String("TODO object_cropped_flag")` failure. -/
def read_window_info (s : ByteStream) : Except PgsError (WindowInformationObject × ByteStream) :=
  match readExact s 8 with
  | .error e => .error e
  | .ok (buf, s1) =>
    let flag := buf.getD 3 0
    if flag ≠ 0x00 ∧ flag ≠ 0x40 then
      .error (.strError "TODO object_cropped_flag")
    else if flag = 0x40 then
      match readExact s1 8 with
      | .error e => .error e
      | .ok (cbuf, s2) =>
        .ok (⟨be16 (buf.getD 0 0) (buf.getD 1 0), buf.getD 2 0, flag,
              be16 (buf.getD 4 0) (buf.getD 5 0), be16 (buf.getD 6 0) (buf.getD 7 0),
              some ⟨be16 (cbuf.getD 0 0) (cbuf.getD 1 0), be16 (cbuf.getD 2 0) (cbuf.getD 3 0),
                    be16 (cbuf.getD 4 0) (cbuf.getD 5 0), be16 (cbuf.getD 6 0) (cbuf.getD 7 0)⟩⟩,
             s2)
    else
      .ok (⟨be16 (buf.getD 0 0) (buf.getD 1 0), buf.getD 2 0, flag,
            be16 (buf.getD 4 0) (buf.getD 5 0), be16 (buf.getD 6 0) (buf.getD 7 0),
            none⟩, s1)

/-- Reads `n` composition-object records in sequence
(`(0..n).map(|_| read_window_info(reader)).collect()`). -/
def readWindowInfos : Nat → ByteStream → Except PgsError (List WindowInformationObject × ByteStream)
  | 0, s => .ok ([], s)
  | n + 1, s =>
    match read_window_info s with
    | .error e => .error e
    | .ok (w, s1) =>
      match readWindowInfos n s1 with
      | .error e => .error e
      | .ok (ws, s2) => .ok (w :: ws, s2)

/-- `PresentationCompositionSegment` from `segment.rs`. -/
structure PresentationCompositionSegment where
  width : Nat
  height : Nat
  frame_rate : Nat
  composition_number : Nat
  composition_state : CompositionState
  palette_update_flag : Nat
  palette_id : Nat
  composition_objects : List WindowInformationObject
  deriving DecidableEq

/-- `read_pcs`: fixed 11-byte prefix, `assert!(frame_rate == 0x10)` (a panic
on failure), validated composition state and palette-update flag, then an
explicit count of composition-object records. -/
def read_pcs (s : ByteStream) : Except PgsError (PresentationCompositionSegment × ByteStream) :=
  match readExact s 11 with
  | .error e => .error e
  | .ok (buf, s1) =>
    let frame_rate := buf.getD 4 0
    if frame_rate ≠ 0x10 then
      .error .panicked
    else
      match CompositionState.tryFrom (buf.getD 7 0) with
      | .error e => .error e
      | .ok composition_state =>
        let palette_update_flag := buf.getD 8 0
        if palette_update_flag ≠ 0x00 ∧ palette_update_flag ≠ 0x80 then
          .error (.strError "TODO palette_update_flag")
        else
          match readWindowInfos (buf.getD 10 0) s1 with
          | .error e => .error e
          | .ok (objs, s2) =>
            .ok (⟨be16 (buf.getD 0 0) (buf.getD 1 0), be16 (buf.getD 2 0) (buf.getD 3 0),
                  frame_rate, be16 (buf.getD 5 0) (buf.getD 6 0), composition_state,
                  palette_update_flag, buf.getD 9 0, objs⟩, s2)

/-- `WindowDefinitionSegment` from `segment.rs`. -/
structure WindowDefinitionSegment where
  number_of_windows : Nat
  window_id : Nat
  window_horizontal_position : Nat
  window_vertical_position : Nat
  window_width : Nat
  window_height : Nat
  deriving DecidableEq

/-- `read_wds`: one fixed 10-byte record. -/
def read_wds (s : ByteStream) : Except PgsError (WindowDefinitionSegment × ByteStream) :=
  match readExact s 10 with
  | .error e => .error e
  | .ok (buf, s1) =>
    .ok (⟨buf.getD 0 0, buf.getD 1 0,
          be16 (buf.getD 2 0) (buf.getD 3 0), be16 (buf.getD 4 0) (buf.getD 5 0),
          be16 (buf.getD 6 0) (buf.getD 7 0), be16 (buf.getD 8 0) (buf.getD 9 0)⟩, s1)

/-- `PaletteEntry` from `segment.rs`. -/
structure PaletteEntry where
  palette_entry_id : Nat
  luminance : Nat
  color_difference_red : Nat
  color_difference_blue : Nat
  transparency : Nat
  deriving DecidableEq

/-- `PaletteDefinitionSegment` from `segment.rs`. -/
structure PaletteDefinitionSegment where
  palette_id : Nat
  palette_version_number : Nat
  palette_entries : List PaletteEntry
  deriving DecidableEq

/-- `read_pds`: read the whole `segments_size`-byte payload, then index
`pds_buf[0]`, `pds_buf[1]` (panicking when the payload is shorter than 2,
modelled by the `segments_size < 2` branch), compute
`nb = (segments_size - 2) / 5` and `assert_eq!(nb * 5 + 2, segments_size)`
(a panic on a size with a non-zero remainder), then build the `nb` entries
from consecutive 5-byte groups at offsets `2 + idx * 5`. -/
def read_pds (s : ByteStream) (segments_size : Nat) :
    Except PgsError (PaletteDefinitionSegment × ByteStream) :=
  match readExact s segments_size with
  | .error e => .error e
  | .ok (buf, s1) =>
    if segments_size < 2 then
      .error .panicked
    else
      let nb := (segments_size - 2) / 5
      if nb * 5 + 2 ≠ segments_size then
        .error .panicked
      else
        .ok (⟨buf.getD 0 0, buf.getD 1 0,
              (List.range nb).map (fun idx =>
                ⟨buf.getD (2 + idx * 5) 0, buf.getD (2 + idx * 5 + 1) 0,
                 buf.getD (2 + idx * 5 + 2) 0, buf.getD (2 + idx * 5 + 3) 0,
                 buf.getD (2 + idx * 5 + 4) 0⟩)⟩, s1)

/-- `LastInSequenceFlag` from `segment.rs`. -/
inductive LastInSequenceFlag where
  | LastInSequence
  | FirstInSequence
  | FirstAndLastInSequence
  deriving DecidableEq

/-- `TryFrom<u8> for LastInSequenceFlag`. -/
def LastInSequenceFlag.tryFrom (value : Nat) : Except PgsError LastInSequenceFlag :=
  if value = 0x40 then .ok .LastInSequence
  else if value = 0x80 then .ok .FirstInSequence
  else if value = 0xC0 then .ok .FirstAndLastInSequence
  else .error (.strError "LastInSequenceFlag parsing error")

/-- `ObjectDefinitionSegment` from `segment.rs` (field names as in the
source, including the `object_data_lenght` typo); the bitmap payload is kept
as a stream offset plus length, as in the source. -/
structure ObjectDefinitionSegment where
  object_id : Nat
  object_version_number : Nat
  last_in_sequence_flag : LastInSequenceFlag
  object_data_lenght : u24
  width : Nat
  height : Nat
  object_data_seek : Nat
  object_data_len : Nat
  deriving DecidableEq

/-- `read_ods`: fixed 11-byte header, validated sequence flag, 24-bit
declared length; `data_size = declared - 4` (a `usize` subtraction that
panics in a debug build when `declared < 4`), then
`assert!(11 + data_size == segments_size)` — a panic, not an `Error`, on any
mismatch — and a read of the `data_size` payload bytes, recording only their
stream offset and length.  No fragment buffering of any kind happens here:
the `last_in_sequence_flag` is stored but never consulted. -/
def read_ods (s : ByteStream) (segments_size : Nat) :
    Except PgsError (ObjectDefinitionSegment × ByteStream) :=
  match readExact s 11 with
  | .error e => .error e
  | .ok (buf, s1) =>
    match LastInSequenceFlag.tryFrom (buf.getD 3 0) with
    | .error e => .error e
    | .ok flag =>
      let object_data_lenght := u24.fromBytes (buf.getD 4 0) (buf.getD 5 0) (buf.getD 6 0)
      if object_data_lenght.to_u32 < 4 then
        .error .panicked
      else
        let data_size := object_data_lenght.to_u32 - 4
        if 11 + data_size ≠ segments_size then
          .error .panicked
        else
          match readExact s1 data_size with
          | .error e => .error e
          | .ok (_, s2) =>
            .ok (⟨be16 (buf.getD 0 0) (buf.getD 1 0), buf.getD 2 0, flag,
                  object_data_lenght,
                  be16 (buf.getD 7 0) (buf.getD 8 0), be16 (buf.getD 9 0) (buf.getD 10 0),
                  s1.pos, data_size⟩, s2)

/-! ## `src/pgs/mod.rs`: the segment loop `run` -/

/-- The segment kinds dispatched on by `run`. -/
inductive SgType where
  | Pcs
  | Wds
  | Pds
  | Ods
  | End
  deriving DecidableEq

/-- Modelled from the spec: `SegmentHeader::sg_type` is called by `run` but
its definition is absent from the sources.  The spec's wire table maps type
codes `0x14/0x15/0x16/0x17/0x80` to Palette/Object/Composition/Window/End
segments, and says the dispatcher "fails with `InvalidSegmentType`" on any
other code. -/
def SegmentHeader.sg_type (h : SegmentHeader) : Except PgsError SgType :=
  if h.type_code = 0x14 then .ok .Pds
  else if h.type_code = 0x15 then .ok .Ods
  else if h.type_code = 0x16 then .ok .Pcs
  else if h.type_code = 0x17 then .ok .Wds
  else if h.type_code = 0x80 then .ok .End
  else .error (.strError "InvalidSegmentType")

/-- Modelled from the spec: `PreprocessedVobSubtitle` lives in the (absent)
`preprocessor` module; `run` fills it with a `TimeSpan` of millisecond time
points, `force: false` and an empty image list, so only those fields are
modelled (the always-empty `images` vector is dropped). -/
structure PreprocessedVobSubtitle where
  start_ms : Nat
  end_ms : Nat
  force : Bool
  deriving DecidableEq

/-- The `while` loop of `run`: while the stream position is before the end of
the file, read a header, dispatch on its type, and on an End segment push a
display set timed `[pts/90, pts/90 + 1000)` (the `//HACK` fixed duration).
There is no epoch state: every End segment, wherever it occurs, pushes a
display set, and no protocol-order check exists.  Fuel makes the recursion
structural; each iteration consumes at least the 13 header bytes, so
`data.length + 1` units are never exhausted (exhaustion returns the
otherwise-unused `PgsError.parseHeaderSegment`). -/
def runLoop : Nat → ByteStream → List PreprocessedVobSubtitle →
    Except PgsError (List PreprocessedVobSubtitle)
  | 0, _, _ => .error .parseHeaderSegment
  | fuel + 1, s, acc =>
    if s.pos < s.data.length then
      match read_header s with
      | .error e => .error e
      | .ok (hdr, s1) =>
        match hdr.sg_type with
        | .error e => .error e
        | .ok .Pcs =>
          match read_pcs s1 with
          | .error e => .error e
          | .ok (_, s2) => runLoop fuel s2 acc
        | .ok .Wds =>
          match read_wds s1 with
          | .error e => .error e
          | .ok (_, s2) => runLoop fuel s2 acc
        | .ok .Pds =>
          match read_pds s1 hdr.size with
          | .error e => .error e
          | .ok (_, s2) => runLoop fuel s2 acc
        | .ok .Ods =>
          match read_ods s1 hdr.size with
          | .error e => .error e
          | .ok (_, s2) => runLoop fuel s2 acc
        | .ok .End =>
          let time := hdr.presentation_time
          runLoop fuel s1 (acc ++ [⟨time, time + 1000, false⟩])
    else
      .ok acc

/-- `run` on an already-opened input: fold the segment loop over the whole
stream from position 0 and return the accumulated display sets. -/
def run (data : List Nat) : Except PgsError (List PreprocessedVobSubtitle) :=
  runLoop (data.length + 1) ⟨data, 0⟩ []

/-- The declared 24-bit object data length of the object segment starting at
the cursor of `s` (bytes 4..6 of the object header, decoded as `read_ods`
decodes them); used only to state theorems about `read_ods`. -/
def odsDeclaredLen (s : ByteStream) : Nat :=
  (u24.fromBytes (byteAt s 4) (byteAt s 5) (byteAt s 6)).to_u32

/-! ## Theorems -/

/-- Indexing the buffer produced by `readExact` at `j < k` is indexing the
underlying data `j` places after the old cursor. -/
theorem getD_take_drop (data : List Nat) (p k j : Nat) (hj : j < k) :
    ((data.drop p).take k).getD j 0 = data.getD (p + j) 0 := by
  rw [List.getD_eq_getElem?_getD, List.getD_eq_getElem?_getD, List.getElem?_take,
      if_pos hj, List.getElem?_drop]

/-- C1.  The claim says a non-zero first byte is emitted as its own color
index, so `[0x07]` should decode to `[0x07]`.  The source instead executes
`output.push(1)`, a hard-coded placeholder: `[0x07]` decodes to `[0x01]`.
The spec's own design notes flag this placeholder as contradicting the
documented format, so the code, not the claim, is wrong. -/
theorem decode_rle_literal_placeholder :
    decodeRle [0x07] = some [0x01] ∧ decodeRle [0x07] ≠ some [0x07] := by
  constructor
  · rfl
  · decide

/-- C2.  The claim says `u24::to_u32 (u24::from_u32 n) = n` for every
`n < 2^24`.  In the source, `from_u32` stores the three low bytes of
`n.to_le_bytes()` (little-endian) while `to_u32` reads the stored bytes
big-endian, so the round trip swaps the first and third byte: already at
`n = 1` it returns `65536 = 2^16`, not `1`.  The two functions are named as
mutually inverse conversions (and the commented-out `Add` impl composes them
as inverses), so the code, not the claim, is wrong. -/
theorem u24_roundtrip_byte_swapped :
    (u24.from_u32 1).to_u32 = 65536 ∧ (65536 : Nat) ≠ 1 := by
  constructor
  · rfl
  · decide

/-- C6 counterexample.  The claimed input `[0x00, 0xC5, 0x09]` does not
decode to `[9, 9, 9, 9, 9]`: `0xC5 = 0b1100_0101` has the long-run bit 6
*set* (not clear, as the claim asserts), so the decoder consumes `0x09` as
the low length byte and then panics (`none`) trying to read the explicit
color byte past the end of the input. -/
theorem decode_rle_c5_control_panics :
    decodeRle [0x00, 0xC5, 0x09] = none ∧
      decodeRle [0x00, 0xC5, 0x09] ≠ some [9, 9, 9, 9, 9] := by
  constructor
  · rfl
  · decide

/-- C6 amended.  The short-run/explicit-color control byte with length 5 is
`0x85 = 0b1000_0101` (color bit set, long bit clear): `[0x00, 0x85, 0x09]`
decodes to five copies of `0x09`.  On `[0x00, 0xC5, 0x09]` itself the decoder
reads `0x09` as the low length byte of a long run (length `0x0509`) and
panics reading the explicit color byte past the end of the input. -/
theorem decode_rle_short_run_explicit_color :
    decodeRle [0x00, 0x85, 0x09] = some [9, 9, 9, 9, 9] ∧
      decodeRle [0x00, 0xC5, 0x09] = none := by
  constructor
  · rfl
  · rfl

set_option maxRecDepth 4000 in
/-- C7.  `[0x00, 0x41, 0x02]` is a long run (`0x41` has bit 6 set, bit 7
clear) of length `be16 1 2 = 0x0102 = 258` in the default color `0`, so it
decodes to 258 zero pixels; and the end-of-line marker `[0x00, 0x00]` emits
no pixels while the loop iteration consumes exactly those two bytes
(`rleStep` moves the cursor from 0 to 2). -/
theorem decode_rle_long_run_and_eol :
    decodeRle [0x00, 0x41, 0x02] = some (List.replicate 258 0) ∧
      decodeRle [0x00, 0x00] = some [] ∧
      rleStep [0x00, 0x00] 0 = some ([], 2) := by
  refine ⟨?_, rfl, rfl⟩
  rfl

/-- Every successful iteration of the `decode_rle` loop moves the cursor
strictly forward (by 1 to 4 bytes depending on the branch). -/
theorem rleStep_pos_lt {data : List Nat} {pos : Nat} {r : List Nat × Nat}
    (h : rleStep data pos = some r) : pos < r.2 := by
  have h64 : ∀ m : Nat, (m &&& 63) >>> 6 = 0 := by
    intro m
    have hlt : m &&& 63 < 64 := Nat.lt_succ_of_le Nat.and_le_right
    rw [Nat.shiftRight_eq_div_pow]
    exact Nat.div_eq_of_lt (by omega)
  unfold rleStep at h
  rcases hb0 : data.get? pos with _ | b0 <;> simp only [hb0] at h
  · exact Option.noConfusion h
  by_cases hz : b0 ≠ 0
  · rw [if_pos hz] at h
    cases h
    exact Nat.lt_succ_self pos
  rw [if_neg hz] at h
  rcases hi : data.get? (pos + 1) with _ | info <;> simp only [hi] at h
  · exact Option.noConfusion h
  by_cases hiz : info = 0
  · rw [if_pos hiz] at h
    cases h
    omega
  rw [if_neg hiz] at h
  simp only [h64, ne_eq, not_true_eq_false, if_false, reduceIte] at h
  by_cases hlong : is_long info <;>
    simp only [hlong, if_true, if_false, Bool.false_eq_true] at h
  · rcases h2 : data.get? (pos + 2) with _ | len2 <;> simp only [h2] at h
    · exact Option.noConfusion h
    by_cases hcol : is_color info <;>
      simp only [hcol, if_true, if_false, Bool.false_eq_true] at h
    · rcases h3 : data.get? (pos + 3) with _ | c <;> simp only [h3] at h
      · exact Option.noConfusion h
      cases h
      show pos < pos + 4
      omega
    · cases h
      show pos < pos + 3
      omega
  · by_cases hcol : is_color info <;>
      simp only [hcol, if_true, if_false, Bool.false_eq_true] at h
    · rcases h3 : data.get? (pos + 2) with _ | c <;> simp only [h3] at h
      · exact Option.noConfusion h
      cases h
      show pos < pos + 3
      omega
    · cases h
      show pos < pos + 2
      omega

/-- Any fuel exceeding the remaining input length yields the same result:
the fuel in `decodeRleFuel` is an artifact of the embedding, not a semantic
bound, because each loop iteration advances the cursor (`rleStep_pos_lt`). -/
theorem decodeRleFuel_sufficient :
    ∀ (f g : Nat) (data : List Nat) (pos : Nat),
      data.length - pos < f → data.length - pos < g →
      decodeRleFuel f data pos = decodeRleFuel g data pos := by
  intro f
  induction f with
  | zero => intro g data pos hf hg; omega
  | succ f ih =>
    intro g data pos hf hg
    obtain ⟨g1, rfl⟩ : ∃ g1, g = g1 + 1 := ⟨g - 1, by omega⟩
    by_cases hp : pos < data.length
    · simp only [decodeRleFuel, if_pos hp]
      cases hstep : rleStep data pos with
      | none => rfl
      | some op =>
        obtain ⟨out, next⟩ := op
        have hlt : pos < next := rleStep_pos_lt hstep
        dsimp only
        rw [ih g1 data next (by omega) (by omega)]
    · simp only [decodeRleFuel, if_neg hp]

/-- C8.  `SegmentHeader::presentation_time` is the truncating integer
division of the 90 kHz tick count by 90: the result is the unique `q` with
`q * 90 ≤ pts < q * 90 + 90`; in particular `90 * 1000` ticks give exactly
1000 ms and `90 * 1000 + 89` ticks still give 1000 ms. -/
theorem presentation_time_truncating_div (h : SegmentHeader) :
    h.presentation_time * 90 ≤ h.pts ∧ h.pts < h.presentation_time * 90 + 90 ∧
      (SegmentHeader.mk (90 * 1000) 0 0x80 0).presentation_time = 1000 ∧
      (SegmentHeader.mk (90 * 1000 + 89) 0 0x80 0).presentation_time = 1000 := by
  have hd := Nat.div_add_mod h.pts 90
  have hm : h.pts % 90 < 90 := Nat.mod_lt _ (by norm_num)
  refine ⟨?_, ?_, rfl, rfl⟩ <;>
    (simp only [SegmentHeader.presentation_time]; omega)

/-- C10.  The RLE decoder terminates on every finite input: a loop iteration
that does not abort (panic) advances the cursor strictly, so whenever the
cursor is still inside the input the remaining-input length strictly
decreases; an iteration with the cursor at or past the end of the input is
the loop's exit. -/
theorem rle_step_advances_cursor (data : List Nat) (pos : Nat) (out : List Nat) (next : Nat)
    (h : rleStep data pos = some (out, next)) :
    pos < next ∧ (pos < data.length → data.length - next < data.length - pos) := by
  have hlt : pos < next := rleStep_pos_lt h
  exact ⟨hlt, fun hp => by omega⟩

/-- Witness for C10 at the concrete input `[0x07]`, cursor 0. -/
theorem rle_step_advances_cursor_witness :
    0 < 1 ∧ (0 < ([0x07] : List Nat).length →
      ([0x07] : List Nat).length - 1 < ([0x07] : List Nat).length - 0) :=
  rle_step_advances_cursor [0x07] 0 [1] 1 (by rfl)

/-- C9.  A 13-byte header read whose first two bytes are not `0x50 0x47`
makes `read_header` return the `Error::String` failure whose message carries
the current stream offset — the position right after the 13-byte read,
`s.pos + 13`, which is where the reader stands when the failure occurs — and
no `SegmentHeader` value is produced. -/
theorem read_header_invalid_magic (s : ByteStream)
    (hlen : s.pos + 13 ≤ s.data.length)
    (hmagic : (s.data.drop s.pos).take 2 ≠ magicNumber) :
    read_header s = .error (.strError (magicErrMsg ++ toString (s.pos + 13))) := by
  unfold read_header readExact
  rw [if_pos hlen]
  dsimp only
  rw [List.take_take]
  norm_num
  exact fun hc => absurd hc hmagic

/-- Witness for C9: thirteen zero bytes at offset 0 fail with the message
carrying offset 13. -/
theorem read_header_invalid_magic_witness :
    read_header ⟨List.replicate 13 0, 0⟩ =
      .error (.strError (magicErrMsg ++ toString (0 + 13))) :=
  read_header_invalid_magic ⟨List.replicate 13 0, 0⟩ (by decide) (by decide)

/-- C5 counterexample.  On a payload of size `3 = 2 + 5·0 + 1` the claim
says `read_pds` returns an `ArithmeticInconsistency` error value rather than
crashing; the source instead hits `assert_eq!(nb * 5 + 2, segments_size)`,
which is a panic (modelled `PgsError.panicked`), and the source error type
has no arithmetic-inconsistency variant at all. -/
theorem read_pds_remainder_panics :
    read_pds ⟨[1, 2, 3], 0⟩ 3 = .error .panicked := by rfl

/-- C5 amended.  A payload of size `2 + 5k` decodes into exactly `k` entries,
each taking its five bytes (entry id, Y, Cr, Cb, alpha) from consecutive
payload positions; a payload of size `2 + 5k + r` with `0 < r < 5` makes the
decoder panic on the failed `assert_eq!` (a crash, not a returned error
value). -/
theorem read_pds_size_shape (s : ByteStream) (k : Nat) :
    (s.pos + (2 + 5 * k) ≤ s.data.length →
      ∃ p s1, read_pds s (2 + 5 * k) = .ok (p, s1) ∧
        p.palette_id = byteAt s 0 ∧ p.palette_version_number = byteAt s 1 ∧
        p.palette_entries = (List.range k).map (fun idx =>
          ⟨byteAt s (2 + idx * 5), byteAt s (2 + idx * 5 + 1), byteAt s (2 + idx * 5 + 2),
           byteAt s (2 + idx * 5 + 3), byteAt s (2 + idx * 5 + 4)⟩)) ∧
    (∀ r, 0 < r → r < 5 → s.pos + (2 + 5 * k + r) ≤ s.data.length →
      read_pds s (2 + 5 * k + r) = .error .panicked) := by
  constructor
  · intro hlen
    have hsz2 : ¬(2 + 5 * k < 2) := by omega
    have hnb : (2 + 5 * k - 2) / 5 = k := by
      have h2 : 2 + 5 * k - 2 = 5 * k := by omega
      rw [h2, Nat.mul_div_cancel_left k (by norm_num : 0 < 5)]
    have hne : ¬((2 + 5 * k - 2) / 5 * 5 + 2 ≠ 2 + 5 * k) := by rw [hnb]; omega
    have hrun : read_pds s (2 + 5 * k) = .ok
        (⟨((s.data.drop s.pos).take (2 + 5 * k)).getD 0 0,
          ((s.data.drop s.pos).take (2 + 5 * k)).getD 1 0,
          (List.range k).map (fun idx =>
            ⟨((s.data.drop s.pos).take (2 + 5 * k)).getD (2 + idx * 5) 0,
             ((s.data.drop s.pos).take (2 + 5 * k)).getD (2 + idx * 5 + 1) 0,
             ((s.data.drop s.pos).take (2 + 5 * k)).getD (2 + idx * 5 + 2) 0,
             ((s.data.drop s.pos).take (2 + 5 * k)).getD (2 + idx * 5 + 3) 0,
             ((s.data.drop s.pos).take (2 + 5 * k)).getD (2 + idx * 5 + 4) 0⟩)⟩,
         ⟨s.data, s.pos + (2 + 5 * k)⟩) := by
      unfold read_pds readExact
      rw [if_pos hlen]
      dsimp only
      rw [if_neg hsz2, if_neg hne, hnb]
    refine ⟨_, _, hrun, ?_, ?_, ?_⟩
    · rw [getD_take_drop s.data s.pos (2 + 5 * k) 0 (by omega)]
      rfl
    · rw [getD_take_drop s.data s.pos (2 + 5 * k) 1 (by omega)]
      rfl
    · apply List.map_congr_left
      intro idx hidx
      have hk : idx < k := List.mem_range.mp hidx
      have t0 := getD_take_drop s.data s.pos (2 + 5 * k) (2 + idx * 5) (by omega)
      have t1 := getD_take_drop s.data s.pos (2 + 5 * k) (2 + idx * 5 + 1) (by omega)
      have t2 := getD_take_drop s.data s.pos (2 + 5 * k) (2 + idx * 5 + 2) (by omega)
      have t3 := getD_take_drop s.data s.pos (2 + 5 * k) (2 + idx * 5 + 3) (by omega)
      have t4 := getD_take_drop s.data s.pos (2 + 5 * k) (2 + idx * 5 + 4) (by omega)
      simp only [byteAt, PaletteEntry.mk.injEq]
      exact ⟨t0, t1, t2, t3, t4⟩
  · intro r hr0 hr5 hlen
    have hsz2 : ¬(2 + 5 * k + r < 2) := by omega
    have hnb : (2 + 5 * k + r - 2) / 5 = k := by
      have h2 : 2 + 5 * k + r - 2 = 5 * k + r := by omega
      rw [h2, Nat.mul_add_div (by norm_num : 0 < 5), Nat.div_eq_of_lt hr5]
      omega
    have hne : (2 + 5 * k + r - 2) / 5 * 5 + 2 ≠ 2 + 5 * k + r := by rw [hnb]; omega
    unfold read_pds readExact
    rw [if_pos hlen]
    dsimp only
    rw [if_neg hsz2, if_pos hne]

/-- Witness for C5 at the concrete payload `[9, 8, 1, 2, 3, 4, 5]`
(`k = 1`): one entry `(1, 2, 3, 4, 5)`; and at size `5 = 2 + 5·0 + 3` on the
same stream: a panic. -/
theorem read_pds_size_shape_witness :
    (∃ p s1, read_pds ⟨[9, 8, 1, 2, 3, 4, 5], 0⟩ (2 + 5 * 1) = .ok (p, s1) ∧
      p.palette_id = 9 ∧ p.palette_version_number = 8 ∧
      p.palette_entries = [⟨1, 2, 3, 4, 5⟩]) ∧
    read_pds ⟨[9, 8, 1, 2, 3, 4, 5], 0⟩ (2 + 5 * 0 + 3) = .error .panicked :=
  ⟨(read_pds_size_shape ⟨[9, 8, 1, 2, 3, 4, 5], 0⟩ 1).1 (by decide),
   (read_pds_size_shape ⟨[9, 8, 1, 2, 3, 4, 5], 0⟩ 0).2 3 (by decide) (by decide) (by decide)⟩

/-- C3 counterexample.  A First fragment of a split object — `object_id` 1,
`sequence_flag` `0x80` (First), declared data length 12 covering the whole
4+4-byte object, this segment carrying the first 4 payload bytes
(`payload_size = 15`) — is not buffered: `read_ods` computes
`data_size = 12 - 4 = 8`, fails `assert!(11 + data_size == segments_size)`
(`19 ≠ 15`) and panics.  No fragment is buffered, no concatenation ever
happens, and no arithmetic-inconsistency error value is returned, even
though the combined length of the two fragments equals
`declared_data_length - 4`. -/
theorem read_ods_first_fragment_panics :
    read_ods ⟨[0, 1, 0, 0x80, 0, 0, 12, 0, 2, 0, 2, 0xAA, 0xBB, 0xCC, 0xDD], 0⟩ 15 =
      .error .panicked := by rfl

/-- C3 amended.  `read_ods` performs no fragment buffering at all: whatever
the sequence flag, each object segment must individually satisfy
`11 + (declared_data_length - 4) = payload_size`; on any mismatch — hence on
every First or Last fragment of a genuinely split object — it panics on a
failed `assert!` (not an error value), and on a match it records just the
stream offset and length of this segment's payload. -/
theorem read_ods_single_segment_only (s : ByteStream) (sz : Nat)
    (hlen : s.pos + 11 ≤ s.data.length)
    (hflag : byteAt s 3 = 0x40 ∨ byteAt s 3 = 0x80 ∨ byteAt s 3 = 0xC0)
    (hdecl : 4 ≤ odsDeclaredLen s) :
    (11 + (odsDeclaredLen s - 4) ≠ sz → read_ods s sz = .error .panicked) ∧
    (11 + (odsDeclaredLen s - 4) = sz → s.pos + sz ≤ s.data.length →
      ∃ ods s2, read_ods s sz = .ok (ods, s2) ∧
        ods.object_id = be16 (byteAt s 0) (byteAt s 1) ∧
        ods.object_data_seek = s.pos + 11 ∧
        ods.object_data_len = odsDeclaredLen s - 4 ∧
        s2.pos = s.pos + sz) := by
  have t0 := getD_take_drop s.data s.pos 11 0 (by omega)
  have t1 := getD_take_drop s.data s.pos 11 1 (by omega)
  have t3 := getD_take_drop s.data s.pos 11 3 (by omega)
  have t4 := getD_take_drop s.data s.pos 11 4 (by omega)
  have t5 := getD_take_drop s.data s.pos 11 5 (by omega)
  have t6 := getD_take_drop s.data s.pos 11 6 (by omega)
  obtain ⟨fl, hfl⟩ :
      ∃ fl, LastInSequenceFlag.tryFrom (s.data.getD (s.pos + 3) 0) = .ok fl := by
    simp only [byteAt] at hflag
    rcases hflag with hf | hf | hf <;> rw [hf] <;> exact ⟨_, rfl⟩
  have hdecl4 : ¬((u24.fromBytes (s.data.getD (s.pos + 4) 0) (s.data.getD (s.pos + 5) 0)
      (s.data.getD (s.pos + 6) 0)).to_u32 < 4) := Nat.not_lt.mpr hdecl
  constructor
  · intro hne
    have hne2 : 11 + ((u24.fromBytes (s.data.getD (s.pos + 4) 0) (s.data.getD (s.pos + 5) 0)
        (s.data.getD (s.pos + 6) 0)).to_u32 - 4) ≠ sz := hne
    unfold read_ods readExact
    rw [if_pos hlen]
    dsimp only
    rw [t3, hfl]
    dsimp only
    rw [t4, t5, t6, if_neg hdecl4, if_pos hne2]
  · intro hsz hlen2
    have hsz2 : 11 + ((u24.fromBytes (s.data.getD (s.pos + 4) 0) (s.data.getD (s.pos + 5) 0)
        (s.data.getD (s.pos + 6) 0)).to_u32 - 4) = sz := hsz
    unfold read_ods readExact
    rw [if_pos hlen]
    dsimp only
    rw [t3, hfl]
    dsimp only
    rw [t4, t5, t6, if_neg hdecl4, if_neg (not_not_intro hsz2)]
    rw [if_pos (by omega : s.pos + 11 + ((u24.fromBytes (s.data.getD (s.pos + 4) 0)
        (s.data.getD (s.pos + 5) 0) (s.data.getD (s.pos + 6) 0)).to_u32 - 4) ≤ s.data.length)]
    dsimp only
    refine ⟨_, _, rfl, ?_, rfl, rfl, ?_⟩
    · dsimp only
      rw [t0, t1]
      rfl
    · dsimp only
      omega

/-- Witness for C3's amended statement: a whole (FirstAndLast, flag `0xC0`)
object with declared length 8 and a 4-byte payload in a 15-byte segment
decodes, recording payload offset 11 and length 4. -/
theorem read_ods_single_segment_only_witness :
    ∃ ods s2,
      read_ods ⟨[0, 3, 7, 0xC0, 0, 0, 8, 0, 1, 0, 1, 9, 9, 9, 9], 0⟩ 15 = .ok (ods, s2) ∧
        ods.object_id = 3 ∧ ods.object_data_seek = 11 ∧ ods.object_data_len = 4 ∧
        s2.pos = 15 :=
  (read_ods_single_segment_only ⟨[0, 3, 7, 0xC0, 0, 0, 8, 0, 1, 0, 1, 9, 9, 9, 9], 0⟩ 15
      (by decide) (by decide) (by decide)).2 (by decide) (by decide)

/-- C4 counterexample.  A stream consisting of a single End segment — no
Composition segment with `EpochStart` ever opened an epoch — does not fail:
`run` accepts it and emits one display set (pts 90000 ticks, so 1000 ms,
with the hard-coded 1000 ms duration).  There is no `AwaitingEpoch` state
and no `UnexpectedSegment` error in the code. -/
theorem run_end_without_epoch_succeeds :
    run [0x50, 0x47, 0, 1, 0x5F, 0x90, 0, 0, 0, 0, 0x80, 0, 0] =
      .ok [⟨1000, 2000, false⟩] := by rfl

/-- C4 amended.  The segment loop keeps no epoch state at all: an End
segment at any position — including as the very first segment of the
stream — emits a display set timed `[pts/90, pts/90 + 1000)` ms, and the
run succeeds.  No `UnexpectedSegment` failure exists. -/
theorem run_end_segment_emits_display_set (a b c d : Nat)
    (ha : a < 256) (hb : b < 256) (hc : c < 256) (hd : d < 256) :
    run [0x50, 0x47, a, b, c, d, 0, 0, 0, 0, 0x80, 0, 0] =
      .ok [⟨be32 a b c d / 90, be32 a b c d / 90 + 1000, false⟩] := by rfl

/-- Witness for C4's amended statement at pts = 90 ticks (1 ms). -/
theorem run_end_segment_emits_display_set_witness :
    run [0x50, 0x47, 0, 0, 0, 90, 0, 0, 0, 0, 0x80, 0, 0] =
      .ok [⟨be32 0 0 0 90 / 90, be32 0 0 0 90 / 90 + 1000, false⟩] :=
  run_end_segment_emits_display_set 0 0 0 90 (by decide) (by decide) (by decide) (by decide)

/-- Supporting fact: the half of the u24 conversion contract that does hold —
`to_u32` of any 3-byte value is below `2^24` (top byte always zero). -/
theorem u24_to_u32_lt (x : u24) (h0 : x.byte0 < 256) (h1 : x.byte1 < 256)
    (h2 : x.byte2 < 256) : x.to_u32 < 2 ^ 24 := by
  simp only [u24.to_u32, be32]
  omega
